import Mathlib

set_option autoImplicit false

namespace Calendarchy

/-! # Shallow embedding of the calendarchy synchronization core

Definitions are translated from the TypeScript source:
`src/cache/event-cache.ts`, `src/services/icloud/caldav.ts`,
`src/services/google/auth.ts`, the `useGoogleAuth` poll effect,
the `useEventFetch` multi-calendar fetch loop, and the reducer's
google-auth cases.  JavaScript strings are modelled as Lean `String`
(character sequences; the inputs of interest are ASCII so JS UTF-16
lengths coincide with character counts), JS `NaN` from numeric parsing
as `none`, and JS timestamps as epoch milliseconds (`Int`). -/

/-! ## JS numeric helpers -/

/-- Value of a nonempty run of decimal digits. -/
def digitsToNat (l : List Char) : Nat :=
  l.foldl (fun n c => n * 10 + (c.toNat - '0'.toNat)) 0

/-- JS `s.trim()`: strip leading and trailing whitespace. -/
def jsTrim (s : String) : String :=
  String.mk
    (((s.toList.dropWhile Char.isWhitespace).reverse.dropWhile Char.isWhitespace).reverse)

/-- JS `s.split(sep)` for a single-character separator. -/
def splitOnCharAux (sep : Char) : List Char → List Char → List String
  | acc, [] => [String.mk acc.reverse]
  | acc, c :: rest =>
    if c == sep then String.mk acc.reverse :: splitOnCharAux sep [] rest
    else splitOnCharAux sep (c :: acc) rest

/-- JS `s.split(sep)` for a single-character separator. -/
def splitOnChar (sep : Char) (s : String) : List String :=
  splitOnCharAux sep [] s.toList

/-- Model of JS `Number(s)` on the strings the cache's `split('-')` produces:
whitespace is trimmed, the empty string is `0`, an optionally signed digit
run is its value, anything else is `NaN` (represented as `none`). -/
def jsNumber (s : String) : Option Int :=
  let t := jsTrim s
  if t = "" then some 0
  else
    match t.toList with
    | '-' :: rest =>
      if !rest.isEmpty && rest.all Char.isDigit then some (-(digitsToNat rest : Int)) else none
    | '+' :: rest =>
      if !rest.isEmpty && rest.all Char.isDigit then some (digitsToNat rest) else none
    | l => if l.all Char.isDigit then some (digitsToNat l) else none

/-- Model of JS `parseInt(s, 10)`: skip leading whitespace and an optional
sign, then read the leading digit run; no digit yields `NaN` (`none`). -/
def parseIntJs (s : String) : Option Int :=
  let l := s.toList.dropWhile Char.isWhitespace
  let signed : Int × List Char :=
    match l with
    | '-' :: rest => (-1, rest)
    | '+' :: rest => (1, rest)
    | _ => (1, l)
  let digits := signed.2.takeWhile Char.isDigit
  if digits.isEmpty then none else some (signed.1 * (digitsToNat digits : Int))

/-- JS `s.slice(a, b)` for `a ≤ b`: the characters at indices `[a, b)`. -/
def jsSlice (s : String) (a b : Nat) : String :=
  String.mk ((s.toList.take b).drop a)

/-- JS `s.includes(sub)` on character lists. -/
def listIncludes (sub : List Char) : List Char → Bool
  | [] => sub.isEmpty
  | l@(_ :: rest) => sub.isPrefixOf l || listIncludes sub rest

/-- JS `s.includes(sub)`. -/
def includesSub (s sub : String) : Bool :=
  listIncludes sub.toList s.toList

/-! ## Data model (`src/types/events.ts`) -/

inductive AttendeeStatus where
  | accepted
  | declined
  | tentative
  | needsAction
  | organizer
deriving DecidableEq, Repr

structure DisplayAttendee where
  name : Option String
  email : String
  status : AttendeeStatus
deriving DecidableEq, Repr

inductive EventId where
  | google (calendarId : String) (eventId : String) (calendarName : Option String)
  | icloud (calendarUrl : String) (eventUid : String) (etag : Option String)
      (calendarName : Option String)
deriving DecidableEq, Repr

structure DisplayEvent where
  id : EventId
  title : String
  timeStr : String
  endTimeStr : Option String
  date : String
  accepted : Bool
  isOrganizer : Bool
  isFree : Bool
  meetingUrl : Option String
  description : Option String
  location : Option String
  attendees : List DisplayAttendee
deriving DecidableEq, Repr

/-! ## Source cache (`src/cache/event-cache.ts`)

A JS `Map` is modelled as an insertion-ordered association list and a JS
`Set` as a list without duplicates; `Map.set` overwrites in place and
appends new keys at the end, exactly as the JS iteration order does. -/

/-- The projection of a JS `Date` that the cache consults:
`getFullYear()` and the zero-based `getMonth()`. -/
structure JsMonthDate where
  fullYear : Int
  monthIndex : Int
deriving DecidableEq, Repr

/-- The month key `` `${year}-${month}` `` with `month = getMonth() + 1`. -/
def monthKey (d : JsMonthDate) : String :=
  toString d.fullYear ++ "-" ++ toString (d.monthIndex + 1)

/-- The test of the clearing loop in `SourceCache.store`:
`const [y, m] = dateKey.split('-').map(Number); y === year && m === month`
(a missing component is `undefined`, which like `NaN` compares unequal). -/
def keyMatchesMonth (dateKey : String) (year month : Int) : Bool :=
  let parts := (splitOnChar '-' dateKey).map jsNumber
  parts.getD 0 none == some year && parts.getD 1 none == some month

/-- `Map.get`: the first entry with the given key. -/
def lookupDate (m : List (String × List DisplayEvent)) (k : String) :
    Option (List DisplayEvent) :=
  (m.find? (fun kv => kv.1 == k)).map (fun kv => kv.2)

/-- `Map.set`: overwrite an existing key in place, else append. -/
def setDate (m : List (String × List DisplayEvent)) (k : String)
    (v : List DisplayEvent) : List (String × List DisplayEvent) :=
  if m.any (fun kv => kv.1 == k) then
    m.map (fun kv => if kv.1 == k then (kv.1, v) else kv)
  else m ++ [(k, v)]

structure SourceCache where
  byDate : List (String × List DisplayEvent)
  fetchedMonths : List String
deriving DecidableEq, Repr

def SourceCache.hasMonth (c : SourceCache) (date : JsMonthDate) : Bool :=
  c.fetchedMonths.contains (monthKey date)

def SourceCache.get (c : SourceCache) (date : String) : List DisplayEvent :=
  (lookupDate c.byDate date).getD []

def SourceCache.hasEvents (c : SourceCache) (date : String) : Bool :=
  match lookupDate c.byDate date with
  | none => false
  | some events => !events.isEmpty

/-- The insertion loop of `SourceCache.store`: group the new events by their
own `date` field, appending to whatever the map currently holds there. -/
def insertByDate (m : List (String × List DisplayEvent)) (events : List DisplayEvent) :
    List (String × List DisplayEvent) :=
  events.foldl (fun m e => setDate m e.date ((lookupDate m e.date).getD [] ++ [e])) m

/-- `SourceCache.store`: clear every date key falling in the month, insert the
new events grouped by date, and mark the month key as fetched. -/
def SourceCache.store (c : SourceCache) (events : List DisplayEvent)
    (monthDate : JsMonthDate) : SourceCache :=
  let year := monthDate.fullYear
  let month := monthDate.monthIndex + 1
  let cleared := c.byDate.filter (fun kv => !keyMatchesMonth kv.1 year month)
  { byDate := insertByDate cleared events
    fetchedMonths :=
      if c.fetchedMonths.contains (monthKey monthDate) then c.fetchedMonths
      else c.fetchedMonths ++ [monthKey monthDate] }

def SourceCache.clear (_c : SourceCache) : SourceCache :=
  { byDate := [], fetchedMonths := [] }

/-- `SourceCache.rawData`: the date→events record, in map iteration order. -/
def SourceCache.rawData (c : SourceCache) : List (String × List DisplayEvent) :=
  c.byDate

/-- `SourceCache.loadFrom`: clear `byDate` and re-set every entry of the
record; fetched-month tracking is deliberately left untouched. -/
def SourceCache.loadFrom (c : SourceCache)
    (data : List (String × List DisplayEvent)) : SourceCache :=
  { byDate := data.foldl (fun m kv => setDate m kv.1 kv.2) []
    fetchedMonths := c.fetchedMonths }

/-! ## Event cache (both providers) -/

structure EventCache where
  google : SourceCache
  icloud : SourceCache
deriving DecidableEq, Repr

/-- The serializable disk format (`DiskCache` in the source). -/
structure DiskCache where
  google : List (String × List DisplayEvent)
  icloud : List (String × List DisplayEvent)
deriving DecidableEq, Repr

/-- `new EventCache()`. -/
def EventCache.new : EventCache :=
  ⟨⟨[], []⟩, ⟨[], []⟩⟩

/-- `EventCache.saveToDisk` modulo serialization: the `DiskCache` value that is
written as JSON (JSON round-tripping of the record is modelled as the
identity). -/
def EventCache.saveToDiskData (c : EventCache) : DiskCache :=
  ⟨c.google.rawData, c.icloud.rawData⟩

/-- `EventCache.loadFromDisk` modulo deserialization, applied to a parsed
`DiskCache` value. -/
def EventCache.loadFromData (c : EventCache) (d : DiskCache) : EventCache :=
  ⟨c.google.loadFrom d.google, c.icloud.loadFrom d.icloud⟩

/-! ## iCal parser (`src/services/icloud/caldav.ts`)

`unfoldICalLines` performs two global regex replaces
(`/\r\n[ \t]/g → ''` then `/\r?\n[ \t]/g → ''`) and splits on `/\r?\n/`;
they are modelled character by character with the left-to-right,
non-overlapping semantics of a global regex replace. -/

def isFoldWS (c : Char) : Bool :=
  c == ' ' || c == '\t'

/-- Global replace of `/\r\n[ \t]/` with the empty string (a position where
the pattern fails advances by one character, as a regex scan does). -/
def stripCRLFFoldFuel : Nat → List Char → List Char
  | 0, l => l
  | _ + 1, [] => []
  | fuel + 1, '\r' :: '\n' :: c :: rest =>
    if isFoldWS c then stripCRLFFoldFuel fuel rest
    else '\r' :: stripCRLFFoldFuel fuel ('\n' :: c :: rest)
  | fuel + 1, c :: rest => c :: stripCRLFFoldFuel fuel rest

def stripCRLFFold (l : List Char) : List Char :=
  stripCRLFFoldFuel l.length l

/-- Global replace of `/\r?\n[ \t]/` with the empty string. -/
def stripLFFoldFuel : Nat → List Char → List Char
  | 0, l => l
  | _ + 1, [] => []
  | fuel + 1, '\r' :: '\n' :: c :: rest =>
    if isFoldWS c then stripLFFoldFuel fuel rest
    else '\r' :: stripLFFoldFuel fuel ('\n' :: c :: rest)
  | fuel + 1, '\n' :: c :: rest =>
    if isFoldWS c then stripLFFoldFuel fuel rest
    else '\n' :: stripLFFoldFuel fuel (c :: rest)
  | fuel + 1, c :: rest => c :: stripLFFoldFuel fuel rest

def stripLFFold (l : List Char) : List Char :=
  stripLFFoldFuel l.length l

/-- Split on `/\r?\n/` (a lone `\r` is not a separator). -/
def splitNewlinesAux : List Char → List Char → List String
  | acc, [] => [String.mk acc.reverse]
  | acc, '\r' :: '\n' :: rest => String.mk acc.reverse :: splitNewlinesAux [] rest
  | acc, '\n' :: rest => String.mk acc.reverse :: splitNewlinesAux [] rest
  | acc, c :: rest => splitNewlinesAux (c :: acc) rest

/-- `unfoldICalLines`: unfold RFC 5545 line continuations, then split. -/
def unfoldICalLines (data : String) : List String :=
  splitNewlinesAux [] (stripLFFold (stripCRLFFold data.toList))

/-- Replace every occurrence of the two-character sequence `a b` by `out`
(one global regex replace of an escape sequence in `unescapeICal`). -/
def replacePairFuel (a b out : Char) : Nat → List Char → List Char
  | 0, l => l
  | _ + 1, [] => []
  | fuel + 1, x :: y :: rest =>
    if x == a && y == b then out :: replacePairFuel a b out fuel rest
    else x :: replacePairFuel a b out fuel (y :: rest)
  | _ + 1, [x] => [x]

def replacePair (a b out : Char) (l : List Char) : List Char :=
  replacePairFuel a b out l.length l

/-- `unescapeICal`: the four sequential global replaces
`\n`→newline, `\,`→`,`, `\;`→`;`, `\\`→`\`. -/
def unescapeICal (value : String) : String :=
  String.mk (replacePair '\\' '\\' '\\'
    (replacePair '\\' ';' ';'
      (replacePair '\\' ',' ','
        (replacePair '\\' 'n' '\n' value.toList))))

/-- Leftmost case-insensitive occurrence of `pat` followed by a nonempty run
of characters other than `;` and `:`; the run is returned verbatim.  This is
the regex `/PAT=([^;:]+)/i` used by `extractPartstat` and the `CN` lookup. -/
def scanParam (pat : List Char) : List Char → Option String
  | [] => none
  | l@(_ :: rest) =>
    if ((l.take pat.length).map Char.toUpper) == pat then
      let run := (l.drop pat.length).takeWhile (fun c => c != ';' && c != ':')
      if run.isEmpty then scanParam pat rest else some (String.mk run)
    else scanParam pat rest

/-- `extractPartstat`: the regex `/PARTSTAT=([^;:]+)/i` on the full key. -/
def extractPartstat (key : String) : Option String :=
  scanParam ("PARTSTAT=".toList) key.toList

/-- The `CN` parameter: regex `/CN=([^;:]+)/i`, double quotes stripped. -/
def extractCN (key : String) : Option String :=
  (scanParam ("CN=".toList) key.toList).map
    (fun s => String.mk (s.toList.filter (fun c => c != '"')))

/-- Strip a leading case-insensitive `mailto:` (regex `/^mailto:/i`). -/
def stripMailto (value : String) : String :=
  let l := value.toList
  if ((l.take 7).map Char.toUpper) == ("MAILTO:".toList) then String.mk (l.drop 7)
  else value

/-! ### Parsed event records (`src/services/icloud/types.ts`) -/

structure ICalAttendee where
  name : Option String
  email : String
  partstat : String
  isOrganizer : Bool
deriving DecidableEq, Repr

/-- The `Date` values `parseICalDateTime` constructs: either
`new Date(Date.UTC(...))` or a local wall-clock `new Date(...)`.  The
components are the arguments passed (month zero-based); `none` stands for a
`NaN` produced by `parseInt`. -/
inductive JsDateValue where
  | utc (year month day hour minute second : Option Int)
  | localTime (year month day hour minute second : Option Int)
deriving DecidableEq, Repr

inductive EventTime where
  | date (date : String)
  | dateTime (dateTime : JsDateValue)
deriving DecidableEq, Repr

/-- The event record the parser accumulates (`Partial<ICalEvent>`); emitted
records additionally have a truthy `uid` and a `dtstart` (see the emission
guard in `stepLine`). -/
structure ICalEvent where
  calendarUrl : String
  etag : Option String
  uid : Option String
  summary : Option String
  dtstart : Option EventTime
  dtend : Option EventTime
  location : Option String
  description : Option String
  url : Option String
  transp : Option String
  attendees : List ICalAttendee
  accepted : Option Bool
deriving DecidableEq, Repr

/-- `parseICalDateTime`. -/
def parseICalDateTime (key value : String) : Option EventTime :=
  if includesSub key "VALUE=DATE" && !includesSub key "VALUE=DATE-TIME" then
    if value.length ≥ 8 then
      some (EventTime.date
        (jsSlice value 0 4 ++ "-" ++ jsSlice value 4 6 ++ "-" ++ jsSlice value 6 8))
    else none
  else if value.length ≥ 15 then
    let year := parseIntJs (jsSlice value 0 4)
    let month := (parseIntJs (jsSlice value 4 6)).map (fun m => m - 1)
    let day := parseIntJs (jsSlice value 6 8)
    let hour := parseIntJs (jsSlice value 9 11)
    let minute := parseIntJs (jsSlice value 11 13)
    let second := parseIntJs (jsSlice value 13 15)
    if value.toList.getLast? == some 'Z' then
      some (EventTime.dateTime (JsDateValue.utc year month day hour minute second))
    else
      some (EventTime.dateTime (JsDateValue.localTime year month day hour minute second))
  else if value.length ≥ 8 then
    some (EventTime.date
      (jsSlice value 0 4 ++ "-" ++ jsSlice value 4 6 ++ "-" ++ jsSlice value 6 8))
  else none

/-- `parseAttendee`. -/
def parseAttendee (key value : String) : Option ICalAttendee :=
  let email := jsTrim (stripMailto value)
  if email.toList.isEmpty || !(email.toList.contains '@') then none
  else
    some { name := extractCN key
           email := email
           partstat := (extractPartstat key).getD "NEEDS-ACTION"
           isOrganizer := false }

/-! ### The line scanner of `parseICalWithSource` -/

/-- Split `KEY:VALUE` at the first colon (`indexOf(':')` plus two slices);
`none` when the line has no colon (the loop skips it). -/
def splitKeyValue (s : String) : Option (String × String) :=
  let l := s.toList
  if l.contains ':' then
    some (String.mk (l.takeWhile (fun c => c != ':')),
          String.mk ((l.dropWhile (fun c => c != ':')).drop 1))
  else none

/-- `fullKey.split(';')[0]`: the prefix before the first `;`. -/
def baseKey (fullKey : String) : String :=
  String.mk (fullKey.toList.takeWhile (fun c => c != ';'))

/-- JS truthiness of a `string | null | undefined` (`null`, `undefined` and
the empty string are falsy). -/
def strTruthy : Option String → Bool
  | none => false
  | some s => !s.toList.isEmpty

/-- The fresh record built at `BEGIN:VEVENT`. -/
def initEvent (calendarUrl : String) (etag : Option String) : ICalEvent :=
  { calendarUrl := calendarUrl, etag := etag, uid := none, summary := none,
    dtstart := none, dtend := none, location := none, description := none,
    url := none, transp := none, attendees := [], accepted := none }

/-- The `selfPartstat` update of the `ATTENDEE` case: a key containing
`X-IS-ME=TRUE` (case-sensitive `includes`) with an extractable `PARTSTAT`
overwrites the tracked value. -/
def updateSelfPartstat (sp : Option String) (fullKey : String) : Option String :=
  if includesSub fullKey "X-IS-ME=TRUE" then
    match extractPartstat fullKey with
    | some p => some p
    | none => sp
  else sp

/-- The loop state of `parseICalWithSource`: the event under construction,
the tracked self `PARTSTAT`, and the emitted events so far. -/
structure ParserState where
  current : Option ICalEvent
  selfPartstat : Option String
  events : List ICalEvent
deriving DecidableEq, Repr

/-- The `switch (baseKey)` of the loop body: how one `KEY[;...]:VALUE` line
updates the event under construction and the tracked self `PARTSTAT`
(the only two pieces of state the switch touches; an unrecognized key, a
`null` date-time or a `null` attendee leave them unchanged). -/
def handleProperty (cur : ICalEvent) (sp : Option String) (fullKey value : String) :
    ICalEvent × Option String :=
  if baseKey fullKey == "UID" then ({ cur with uid := some value }, sp)
  else if baseKey fullKey == "SUMMARY" then
    ({ cur with summary := some (unescapeICal value) }, sp)
  else if baseKey fullKey == "DTSTART" then
    match parseICalDateTime fullKey value with
    | some dt => ({ cur with dtstart := some dt }, sp)
    | none => (cur, sp)
  else if baseKey fullKey == "DTEND" then
    match parseICalDateTime fullKey value with
    | some dt => ({ cur with dtend := some dt }, sp)
    | none => (cur, sp)
  else if baseKey fullKey == "LOCATION" then
    ({ cur with location := some (unescapeICal value) }, sp)
  else if baseKey fullKey == "DESCRIPTION" then
    ({ cur with description := some (unescapeICal value) }, sp)
  else if baseKey fullKey == "URL" then ({ cur with url := some (unescapeICal value) }, sp)
  else if baseKey fullKey == "TRANSP" then ({ cur with transp := some value }, sp)
  else if baseKey fullKey == "ATTENDEE" then
    match parseAttendee fullKey value with
    | some att => ({ cur with attendees := cur.attendees ++ [att] },
                   updateSelfPartstat sp fullKey)
    | none => (cur, updateSelfPartstat sp fullKey)
  else if baseKey fullKey == "ORGANIZER" then
    match parseAttendee fullKey value with
    | some att =>
      ({ cur with attendees :=
          cur.attendees ++ [{ att with isOrganizer := true, partstat := "ACCEPTED" }] },
       sp)
    | none => (cur, sp)
  else (cur, sp)

/-- One iteration of the `for (const line of lines)` loop of
`parseICalWithSource`. -/
def stepLine (calendarUrl : String) (etag : Option String)
    (st : ParserState) (line : String) : ParserState :=
  let trimmed := jsTrim line
  if trimmed == "BEGIN:VEVENT" then
    { st with current := some (initEvent calendarUrl etag), selfPartstat := none }
  else if trimmed == "END:VEVENT" then
    match st.current with
    | none => st
    | some cur =>
      let accepted := !strTruthy st.selfPartstat || st.selfPartstat == some "ACCEPTED"
      let cur := { cur with accepted := some accepted }
      { st with
        current := none
        events :=
          if strTruthy cur.uid && cur.dtstart.isSome then st.events ++ [cur]
          else st.events }
  else
    match st.current with
    | none => st
    | some cur =>
      match splitKeyValue trimmed with
      | none => st
      | some (fullKey, value) =>
        let r := handleProperty cur st.selfPartstat fullKey value
        { st with current := some r.1, selfPartstat := r.2 }

/-- The whole loop, starting outside any event. -/
def parseLines (calendarUrl : String) (etag : Option String)
    (lines : List String) : ParserState :=
  lines.foldl (stepLine calendarUrl etag)
    { current := none, selfPartstat := none, events := [] }

/-- `parseICalWithSource`. -/
def parseICalWithSource (icalData : String) (calendarUrl : String)
    (etag : Option String) : List ICalEvent :=
  (parseLines calendarUrl etag (unfoldICalLines icalData)).events

/-! ## OAuth device flow (`src/services/google/auth.ts`)

Timestamps are epoch milliseconds; the code stores `expiresAt` as
`toISOString()` of the computed instant and compares via `new Date(...)`,
which is a bijective encoding of the same instant. -/

/-- The token endpoint's success body (`TokenResponse`). -/
structure TokenResponse where
  access_token : String
  refresh_token : Option String
  expires_in : Int
  token_type : String
deriving DecidableEq, Repr

/-- `TokenInfo` (`src/types/auth.ts`): `expiresAt` as the epoch-millisecond
instant whose ISO string the code stores. -/
structure TokenInfo where
  accessToken : String
  refreshToken : Option String
  expiresAt : Int
  tokenType : String
deriving DecidableEq, Repr

inductive PollResult where
  | success (tokens : TokenInfo)
  | pending
  | slowDown
  | denied
  | expired
deriving DecidableEq, Repr

/-- The token-endpoint interaction of one `pollForToken` call as the client
sees it: HTTP success with a parsed token body, an HTTP error with the parsed
`{error?}` body, or the fetch itself rejecting. -/
inductive PollHttpResponse where
  | ok (body : TokenResponse)
  | httpError (error : Option String)
  | networkError
deriving DecidableEq, Repr

/-- The `TokenInfo` built from a successful token response at time `now`
(`expiresAt = Date.now() + expires_in * 1000`; `refresh_token ?? null`). -/
def tokenInfoOfResponse (now : Int) (body : TokenResponse) : TokenInfo :=
  { accessToken := body.access_token
    refreshToken := body.refresh_token
    expiresAt := now + body.expires_in * 1000
    tokenType := body.token_type }

/-- `GoogleAuth.pollForToken`: classify the token-endpoint response.
`Except.error` models a thrown `Error` (unknown error body) or the fetch
rejecting (network error). -/
def pollForToken (now : Int) (resp : PollHttpResponse) : Except String PollResult :=
  match resp with
  | .ok body => .ok (.success (tokenInfoOfResponse now body))
  | .httpError e =>
    match e with
    | some s =>
      if s == "authorization_pending" then .ok .pending
      else if s == "slow_down" then .ok .slowDown
      else if s == "access_denied" then .ok .denied
      else if s == "expired_token" then .ok .expired
      else .error "Unknown error"
    | none => .error "Unknown error"
  | .networkError => .error "network error"

/-- `GoogleAuth.refreshToken`: on HTTP success, build a `TokenInfo` keeping
the original refresh token; on HTTP failure, throw. -/
def refreshToken (now : Int) (refreshTok : String) (resp : Except String TokenResponse) :
    Except String TokenInfo :=
  match resp with
  | .error body => .error ("Failed to refresh token: " ++ body)
  | .ok body =>
    .ok { accessToken := body.access_token
          refreshToken := some refreshTok
          expiresAt := now + body.expires_in * 1000
          tokenType := body.token_type }

/-! ## Google auth state machine (`src/types/auth.ts`, reducer, `useGoogleAuth`) -/

inductive GoogleAuthState where
  | notConfigured
  | notAuthenticated
  | awaitingUserCode (userCode verificationUrl deviceCode : String) (expiresAt : Int)
  | authenticated (tokens : TokenInfo)
  | error (message : String)
deriving DecidableEq, Repr

/-- The google-related slice of the reducer's `AppState`. -/
structure GoogleSlice where
  googleAuth : GoogleAuthState
  googleLoading : Bool
  googleNeedsFetch : Bool
deriving DecidableEq, Repr

/-- The actions the poll effect dispatches. -/
inductive GoogleAction where
  | googleToken (tokens : TokenInfo)
  | googleAuthError (message : String)
  | setStatus (message : String)
deriving DecidableEq, Repr

/-- The `GOOGLE_TOKEN` / `GOOGLE_AUTH_ERROR` / `SET_STATUS` cases of the
reducer, restricted to the google slice (`SET_STATUS` does not touch it). -/
def googleReducer (st : GoogleSlice) (a : GoogleAction) : GoogleSlice :=
  match a with
  | .googleToken tokens =>
    { st with googleAuth := .authenticated tokens, googleNeedsFetch := true,
              googleLoading := false }
  | .googleAuthError m =>
    { st with googleAuth := .error m, googleLoading := false }
  | .setStatus _ => st

/-- The state after one tick of the poll loop: the reduced slice plus whether
`pollIntervalRef` is still set. -/
structure PollEffectResult where
  slice : GoogleSlice
  timerActive : Bool
deriving DecidableEq, Repr

/-- One invocation of the `poll` closure in `useGoogleAuth`, given the wall
clock `now`, the expiry captured from the awaiting state, the current slice,
and the outcome of the token request.  First the self-expiry check, then the
classified poll result; thrown errors are swallowed and polling continues. -/
def pollTick (now expiresAt : Int) (st : GoogleSlice) (resp : PollHttpResponse) :
    PollEffectResult :=
  if now ≥ expiresAt then
    { slice := googleReducer st (.googleAuthError "Authorization expired")
      timerActive := false }
  else
    match pollForToken now resp with
    | .error _ => { slice := st, timerActive := true }
    | .ok r =>
      match r with
      | .success tokens =>
        { slice := googleReducer (googleReducer st (.googleToken tokens))
                     (.setStatus "Google authenticated!")
          timerActive := false }
      | .denied =>
        { slice := googleReducer st (.googleAuthError "Authorization denied")
          timerActive := false }
      | .expired =>
        { slice := googleReducer st (.googleAuthError "Authorization expired")
          timerActive := false }
      | .pending => { slice := st, timerActive := true }
      | .slowDown => { slice := st, timerActive := true }

/-! ## Multi-calendar CalDAV fetch (`src/hooks/useEventFetch.ts`) -/

/-- `CalendarEntry` (`src/types/auth.ts`). -/
structure CalendarEntry where
  url : String
  name : Option String
deriving DecidableEq, Repr

/-- The sequential per-calendar loop of `fetchICloud`: `fetchResult` gives
each calendar's query outcome (`Except.error` models `fetchEvents` throwing),
`conv` is `icloudEventToDisplay`; a throwing calendar is skipped and the loop
continues with the next one. -/
def fetchAllCalendars (calendars : List CalendarEntry)
    (fetchResult : CalendarEntry → Except String (List ICalEvent))
    (conv : ICalEvent → Option String → DisplayEvent) : List DisplayEvent :=
  calendars.foldl
    (fun allEvents cal =>
      match fetchResult cal with
      | .ok events => allEvents ++ events.map (fun e => conv e cal.name)
      | .error _ => allEvents)
    []

/-- Well-formedness of the tracked self `PARTSTAT`: absent, or a nonempty
captured value. -/
def spWF (sp : Option String) : Prop :=
  sp = none ∨ ∃ s, sp = some s ∧ s ≠ ""

/-- The event record built and (conditionally) emitted at `END:VEVENT`. -/
def endEvent (cur : ICalEvent) (sp : Option String) : ICalEvent :=
  { cur with accepted := some (!strTruthy sp || sp == some "ACCEPTED") }

/-! # Verification

## Association-list map lemmas -/

theorem lookupDate_cons (kv : String × List DisplayEvent)
    (m : List (String × List DisplayEvent)) (k : String) :
    lookupDate (kv :: m) k = if kv.1 == k then some kv.2 else lookupDate m k := by
  by_cases h : kv.1 == k
  · simp [lookupDate, List.find?_cons_of_pos _ h, h]
  · simp [lookupDate, List.find?_cons_of_neg, h]

theorem lookupDate_map_set_self (k : String) (v : List DisplayEvent) :
    ∀ m : List (String × List DisplayEvent), m.any (fun kv => kv.1 == k) = true →
      lookupDate (m.map (fun kv => if kv.1 == k then (kv.1, v) else kv)) k = some v := by
  intro m
  induction m with
  | nil => intro h; simp at h
  | cons kv rest ih =>
    intro h
    by_cases hkv : kv.1 == k
    · rw [List.map_cons, if_pos hkv, lookupDate_cons]
      simp [hkv]
    · rw [List.map_cons, if_neg hkv, lookupDate_cons]
      have hrest : rest.any (fun kv => kv.1 == k) = true := by
        simpa [List.any_cons, hkv] using h
      simp only [hkv, if_false]
      exact ih hrest

theorem lookupDate_append_not_found (k : String) (v : List DisplayEvent) :
    ∀ m : List (String × List DisplayEvent), m.any (fun kv => kv.1 == k) = false →
      lookupDate (m ++ [(k, v)]) k = some v := by
  intro m
  induction m with
  | nil => intro _; simp [lookupDate_cons]
  | cons kv rest ih =>
    intro h
    rw [List.cons_append, lookupDate_cons]
    have h' := h
    simp only [List.any_cons, Bool.or_eq_false_iff] at h'
    simp only [h'.1, if_false]
    exact ih h'.2

theorem lookupDate_setDate_self (m : List (String × List DisplayEvent)) (k : String)
    (v : List DisplayEvent) : lookupDate (setDate m k v) k = some v := by
  unfold setDate
  by_cases h : m.any (fun kv => kv.1 == k)
  · rw [if_pos h]; exact lookupDate_map_set_self k v m h
  · rw [if_neg h]
    have hf : m.any (fun kv => kv.1 == k) = false := by
      cases hv : m.any (fun kv => kv.1 == k)
      · rfl
      · exact absurd hv h
    exact lookupDate_append_not_found k v m hf

theorem lookupDate_map_set_ne (k k' : String) (v : List DisplayEvent) (h : k' ≠ k) :
    ∀ m : List (String × List DisplayEvent),
      lookupDate (m.map (fun kv => if kv.1 == k then (kv.1, v) else kv)) k'
        = lookupDate m k' := by
  intro m
  induction m with
  | nil => rfl
  | cons kv rest ih =>
    by_cases hkv : kv.1 == k
    · have hk : kv.1 = k := by simpa using hkv
      have hne : (kv.1 == k') = false := by
        rw [hk]
        exact beq_eq_false_iff_ne.mpr (fun hc => h hc.symm)
      rw [List.map_cons, if_pos hkv, lookupDate_cons, lookupDate_cons]
      simp only [hne, if_false]
      exact ih
    · rw [List.map_cons, if_neg hkv, lookupDate_cons, lookupDate_cons]
      by_cases hk' : kv.1 == k'
      · simp [hk']
      · simp only [hk', if_false]
        exact ih

theorem lookupDate_append_ne (k k' : String) (v : List DisplayEvent) (h : k' ≠ k) :
    ∀ m : List (String × List DisplayEvent),
      lookupDate (m ++ [(k, v)]) k' = lookupDate m k' := by
  intro m
  induction m with
  | nil =>
    have hne : (k == k') = false := beq_eq_false_iff_ne.mpr (fun hc => h hc.symm)
    simp [lookupDate_cons, hne, lookupDate]
  | cons kv rest ih =>
    rw [List.cons_append, lookupDate_cons, lookupDate_cons]
    by_cases hk' : kv.1 == k'
    · simp [hk']
    · simp only [hk', if_false]
      exact ih

theorem lookupDate_setDate_ne (m : List (String × List DisplayEvent)) (k k' : String)
    (v : List DisplayEvent) (h : k' ≠ k) :
    lookupDate (setDate m k v) k' = lookupDate m k' := by
  unfold setDate
  by_cases hany : m.any (fun kv => kv.1 == k)
  · rw [if_pos hany]; exact lookupDate_map_set_ne k k' v h m
  · rw [if_neg hany]; exact lookupDate_append_ne k k' v h m

theorem lookupDate_filter_matches (year month : Int)
    (m : List (String × List DisplayEvent)) (d : String)
    (hd : keyMatchesMonth d year month = true) :
    lookupDate (m.filter (fun kv => !keyMatchesMonth kv.1 year month)) d = none := by
  induction m with
  | nil => rfl
  | cons kv rest ih =>
    rw [List.filter_cons]
    by_cases hkv : kv.1 == d
    · have hk : kv.1 = d := by simpa using hkv
      have hdrop : (!keyMatchesMonth kv.1 year month) = false := by simp [hk, hd]
      simp only [hdrop, Bool.false_eq_true, if_false]
      exact ih
    · by_cases hp : (!keyMatchesMonth kv.1 year month) = true
      · simp only [hp, if_true, lookupDate_cons, hkv, if_false]
        exact ih
      · simp only [Bool.not_eq_true] at hp
        simp only [hp, Bool.false_eq_true, if_false]
        exact ih

theorem lookupDate_filter_other (year month : Int)
    (m : List (String × List DisplayEvent)) (d : String)
    (hd : keyMatchesMonth d year month = false) :
    lookupDate (m.filter (fun kv => !keyMatchesMonth kv.1 year month)) d
      = lookupDate m d := by
  induction m with
  | nil => rfl
  | cons kv rest ih =>
    rw [List.filter_cons, lookupDate_cons]
    by_cases hkv : kv.1 == d
    · have hk : kv.1 = d := by simpa using hkv
      have hkeep : (!keyMatchesMonth kv.1 year month) = true := by simp [hk, hd]
      simp only [hkeep, if_true, lookupDate_cons, hkv, if_true]
    · by_cases hp : (!keyMatchesMonth kv.1 year month) = true
      · simp only [hp, if_true, lookupDate_cons, hkv, if_false]
        exact ih
      · simp only [Bool.not_eq_true] at hp
        simp only [hp, Bool.false_eq_true, if_false, hkv, if_false]
        exact ih

theorem insertByDate_get (es : List DisplayEvent) :
    ∀ (m : List (String × List DisplayEvent)) (d : String),
      (lookupDate (insertByDate m es) d).getD [] =
        (lookupDate m d).getD [] ++ es.filter (fun e => e.date == d) := by
  induction es with
  | nil => intro m d; simp [insertByDate]
  | cons e rest ih =>
    intro m d
    have hstep : insertByDate m (e :: rest) =
        insertByDate (setDate m e.date ((lookupDate m e.date).getD [] ++ [e])) rest := rfl
    rw [hstep]
    by_cases hd : e.date = d
    · subst hd
      rw [ih, lookupDate_setDate_self]
      simp [List.filter_cons]
    · rw [ih, lookupDate_setDate_ne _ _ _ _ (fun hc => hd hc.symm)]
      have hne : (e.date == d) = false := by simpa using hd
      simp [List.filter_cons, hne]

theorem contains_after_add (l : List String) (k : String) :
    (if l.contains k then l else l ++ [k]).contains k = true := by
  by_cases h : l.contains k
  · rw [if_pos h]; exact h
  · rw [if_neg h]
    have hmem : k ∈ l ++ [k] := List.mem_append_right l (List.mem_singleton_self k)
    simp [hmem]

/-! ## C1 / C9: the store operation -/

/-- C1: `SourceCache.store events M` first removes every cached entry whose
date key falls in `M`'s year and month (per the code's `split('-')` /
`Number` test), then inserts the given events grouped by their own `date`
field, so every in-month date `d` afterwards holds exactly the stored events
whose `date` is `d`; `hasMonth M` becomes true; and storing an empty list
leaves every in-month date with zero events. -/
theorem store_replaces_month (c : SourceCache) (events : List DisplayEvent)
    (M : JsMonthDate) :
    (c.store events M).hasMonth M = true ∧
    (∀ d : String, keyMatchesMonth d M.fullYear (M.monthIndex + 1) = true →
      (c.store events M).get d = events.filter (fun e => e.date == d)) ∧
    (∀ d : String, keyMatchesMonth d M.fullYear (M.monthIndex + 1) = true →
      (c.store [] M).get d = []) := by
  have hgen : ∀ (es : List DisplayEvent) (d : String),
      keyMatchesMonth d M.fullYear (M.monthIndex + 1) = true →
      (c.store es M).get d = es.filter (fun e => e.date == d) := by
    intro es d hd
    show (lookupDate (insertByDate
        (c.byDate.filter (fun kv => !keyMatchesMonth kv.1 M.fullYear (M.monthIndex + 1)))
        es) d).getD [] = _
    rw [insertByDate_get]
    rw [lookupDate_filter_matches _ _ _ _ hd]
    simp
  refine ⟨?_, fun d hd => hgen events d hd, fun d hd => by rw [hgen [] d hd]; rfl⟩
  show (if c.fetchedMonths.contains (monthKey M) then c.fetchedMonths
        else c.fetchedMonths ++ [monthKey M]).contains (monthKey M) = true
  exact contains_after_add _ _

/-- Witness for C1: a cache holding one July 2025 event; storing the empty
list for July 2025 empties that date and marks the month fetched. -/
theorem store_replaces_month_witness :
    (({ byDate := [("2025-07-01",
          [{ id := EventId.google "c" "a" none, title := "a", timeStr := "x",
             endTimeStr := none, date := "2025-07-01", accepted := true,
             isOrganizer := false, isFree := false, meetingUrl := none,
             description := none, location := none, attendees := [] }])],
        fetchedMonths := [] } : SourceCache).store [] ⟨2025, 6⟩).hasMonth ⟨2025, 6⟩ = true ∧
    (({ byDate := [("2025-07-01",
          [{ id := EventId.google "c" "a" none, title := "a", timeStr := "x",
             endTimeStr := none, date := "2025-07-01", accepted := true,
             isOrganizer := false, isFree := false, meetingUrl := none,
             description := none, location := none, attendees := [] }])],
        fetchedMonths := [] } : SourceCache).store [] ⟨2025, 6⟩).get "2025-07-01" = [] := by
  have h := store_replaces_month
    ({ byDate := [("2025-07-01",
          [{ id := EventId.google "c" "a" none, title := "a", timeStr := "x",
             endTimeStr := none, date := "2025-07-01", accepted := true,
             isOrganizer := false, isFree := false, meetingUrl := none,
             description := none, location := none, attendees := [] }])],
        fetchedMonths := [] } : SourceCache) [] ⟨2025, 6⟩
  exact ⟨h.1, by simpa using h.2.1 "2025-07-01" (by decide)⟩

/-- C9 (frame property of `store`): a date key outside the stored month is
left unchanged except for appending the new events whose own `date` equals
it; in particular no event cached under an out-of-month date is removed. -/
theorem store_frame (c : SourceCache) (events : List DisplayEvent)
    (M : JsMonthDate) (d : String)
    (hd : keyMatchesMonth d M.fullYear (M.monthIndex + 1) = false) :
    (c.store events M).get d = c.get d ++ events.filter (fun e => e.date == d) ∧
    (∀ ev ∈ c.get d, ev ∈ (c.store events M).get d) := by
  have hmain : (c.store events M).get d = c.get d ++ events.filter (fun e => e.date == d) := by
    show (lookupDate (insertByDate _ events) d).getD [] = _
    rw [insertByDate_get]
    rw [lookupDate_filter_other _ _ _ _ hd]
    rfl
  refine ⟨hmain, ?_⟩
  intro ev hev
  rw [hmain]
  exact List.mem_append_left _ hev

/-- Witness for C9: storing a July 2025 event for month July 2025 leaves a
June date's cached event in place. -/
theorem store_frame_witness :
    (({ byDate := [("2025-06-30",
          [{ id := EventId.google "c" "j" none, title := "j", timeStr := "x",
             endTimeStr := none, date := "2025-06-30", accepted := true,
             isOrganizer := false, isFree := false, meetingUrl := none,
             description := none, location := none, attendees := [] }])],
        fetchedMonths := [] } : SourceCache).store [] ⟨2025, 6⟩).get "2025-06-30" =
      [{ id := EventId.google "c" "j" none, title := "j", timeStr := "x",
         endTimeStr := none, date := "2025-06-30", accepted := true,
         isOrganizer := false, isFree := false, meetingUrl := none,
         description := none, location := none, attendees := [] }] := by
  have h := store_frame
    ({ byDate := [("2025-06-30",
          [{ id := EventId.google "c" "j" none, title := "j", timeStr := "x",
             endTimeStr := none, date := "2025-06-30", accepted := true,
             isOrganizer := false, isFree := false, meetingUrl := none,
             description := none, location := none, attendees := [] }])],
        fetchedMonths := [] } : SourceCache) [] ⟨2025, 6⟩ "2025-06-30" (by decide)
  simpa using h.1

/-! ## C3: disk round-trip -/

theorem foldl_setDate_eq_append :
    ∀ (l acc : List (String × List DisplayEvent)),
      (l.map Prod.fst).Nodup →
      (∀ kv ∈ l, acc.any (fun kv' => kv'.1 == kv.1) = false) →
      l.foldl (fun m kv => setDate m kv.1 kv.2) acc = acc ++ l := by
  intro l
  induction l with
  | nil => intro acc _ _; simp
  | cons kv rest ih =>
    intro acc hnd hdisj
    simp only [List.map_cons, List.nodup_cons] at hnd
    have hfirst : acc.any (fun kv' => kv'.1 == kv.1) = false :=
      hdisj kv (List.mem_cons_self kv rest)
    have hset : setDate acc kv.1 kv.2 = acc ++ [kv] := by
      unfold setDate
      simp [hfirst]
    rw [List.foldl_cons, hset]
    rw [ih (acc ++ [kv]) hnd.2 ?_]
    · simp
    intro kv' hkv'
    rw [List.any_append]
    have hacc : acc.any (fun x => x.1 == kv'.1) = false :=
      hdisj kv' (List.mem_cons_of_mem kv hkv')
    have hne : (kv.1 == kv'.1) = false := by
      refine beq_eq_false_iff_ne.mpr ?_
      intro hc
      exact hnd.1 (hc ▸ List.mem_map_of_mem Prod.fst hkv')
    simp [hacc, hne]

/-- C3: for any cache whose per-provider maps have no duplicate date keys (a
JS `Map` invariant), saving to disk and loading the result into a fresh cache
reproduces the date→events mapping of both providers (`get` agrees on every
date), while the freshly loaded cache reports `hasMonth` false for every
month, because fetched-month tracking is not serialized and a load leaves the
fresh cache's empty tracking untouched. -/
theorem saveLoad_roundTrip (c : EventCache) (d : String) (M : JsMonthDate)
    (hg : (c.google.byDate.map Prod.fst).Nodup)
    (hi : (c.icloud.byDate.map Prod.fst).Nodup) :
    ((EventCache.loadFromData EventCache.new (EventCache.saveToDiskData c)).google.get d
        = c.google.get d ∧
      (EventCache.loadFromData EventCache.new (EventCache.saveToDiskData c)).icloud.get d
        = c.icloud.get d) ∧
    ((EventCache.loadFromData EventCache.new (EventCache.saveToDiskData c)).google.hasMonth M
        = false ∧
      (EventCache.loadFromData EventCache.new (EventCache.saveToDiskData c)).icloud.hasMonth M
        = false) := by
  have hbg : (EventCache.loadFromData EventCache.new (EventCache.saveToDiskData c)).google.byDate
      = c.google.byDate := by
    show c.google.byDate.foldl (fun m kv => setDate m kv.1 kv.2) [] = c.google.byDate
    rw [foldl_setDate_eq_append c.google.byDate [] hg (fun kv _ => rfl)]
    rfl
  have hbi : (EventCache.loadFromData EventCache.new (EventCache.saveToDiskData c)).icloud.byDate
      = c.icloud.byDate := by
    show c.icloud.byDate.foldl (fun m kv => setDate m kv.1 kv.2) [] = c.icloud.byDate
    rw [foldl_setDate_eq_append c.icloud.byDate [] hi (fun kv _ => rfl)]
    rfl
  refine ⟨⟨?_, ?_⟩, rfl, rfl⟩
  · show (lookupDate _ d).getD [] = (lookupDate _ d).getD []
    rw [hbg]
  · show (lookupDate _ d).getD [] = (lookupDate _ d).getD []
    rw [hbi]

/-- Witness for C3: a one-event cache round-trips and forgets its fetched
month. -/
theorem saveLoad_roundTrip_witness :
    ((EventCache.loadFromData EventCache.new (EventCache.saveToDiskData
        ⟨{ byDate := [("2025-07-01",
             [{ id := EventId.google "c" "a" none, title := "a", timeStr := "x",
                endTimeStr := none, date := "2025-07-01", accepted := true,
                isOrganizer := false, isFree := false, meetingUrl := none,
                description := none, location := none, attendees := [] }])],
           fetchedMonths := ["2025-7"] },
         { byDate := [], fetchedMonths := [] }⟩)).google.get "2025-07-01"
      = [{ id := EventId.google "c" "a" none, title := "a", timeStr := "x",
           endTimeStr := none, date := "2025-07-01", accepted := true,
           isOrganizer := false, isFree := false, meetingUrl := none,
           description := none, location := none, attendees := [] }]) ∧
    ((EventCache.loadFromData EventCache.new (EventCache.saveToDiskData
        ⟨{ byDate := [("2025-07-01",
             [{ id := EventId.google "c" "a" none, title := "a", timeStr := "x",
                endTimeStr := none, date := "2025-07-01", accepted := true,
                isOrganizer := false, isFree := false, meetingUrl := none,
                description := none, location := none, attendees := [] }])],
           fetchedMonths := ["2025-7"] },
         { byDate := [], fetchedMonths := [] }⟩)).google.hasMonth ⟨2025, 6⟩ = false) := by
  have h := saveLoad_roundTrip
    ⟨{ byDate := [("2025-07-01",
         [{ id := EventId.google "c" "a" none, title := "a", timeStr := "x",
            endTimeStr := none, date := "2025-07-01", accepted := true,
            isOrganizer := false, isFree := false, meetingUrl := none,
            description := none, location := none, attendees := [] }])],
       fetchedMonths := ["2025-7"] },
     { byDate := [], fetchedMonths := [] }⟩ "2025-07-01" ⟨2025, 6⟩
    (by decide) (by decide)
  exact ⟨by rw [h.1.1]; rfl, h.2.1⟩

/-! ## C5: emission guard of the parser -/

theorem strTruthy_isSome (x : Option String) (h : strTruthy x = true) : x.isSome = true := by
  cases x with
  | none => simp [strTruthy] at h
  | some s => rfl

theorem stepLine_events_sound (u : String) (et : Option String) (st : ParserState)
    (line : String)
    (h : st.events.all (fun e => e.uid.isSome && e.dtstart.isSome) = true) :
    ((stepLine u et st line).events.all (fun e => e.uid.isSome && e.dtstart.isSome))
      = true := by
  unfold stepLine
  by_cases hb : (jsTrim line == "BEGIN:VEVENT") = true
  · simp only [hb, if_true]
    exact h
  · simp only [hb, Bool.false_eq_true, if_false]
    by_cases he : (jsTrim line == "END:VEVENT") = true
    · simp only [he, if_true]
      cases hcur : st.current with
      | none => exact h
      | some cur =>
        by_cases hg : (strTruthy cur.uid && cur.dtstart.isSome) = true
        · simp only [hg, if_true, List.all_append, h, Bool.true_and, List.all_cons,
            List.all_nil, Bool.and_true]
          have h1 : cur.uid.isSome = true :=
            strTruthy_isSome _ (Bool.and_elim_left hg)
          have h2 : cur.dtstart.isSome = true := Bool.and_elim_right hg
          simp [h1, h2]
        · simp only [Bool.not_eq_true] at hg
          simp only [hg, Bool.false_eq_true, if_false]
          exact h
    · simp only [he, Bool.false_eq_true, if_false]
      cases hcur : st.current with
      | none => exact h
      | some cur =>
        cases hsplit : splitKeyValue (jsTrim line) with
        | none => exact h
        | some kvp => exact h

/-- C5: a VEVENT block in which no `UID` value or no `DTSTART` value was
captured is never present in the parser's output: every emitted event has a
captured `uid` and a captured `dtstart` (on `END:VEVENT` the emission guard
requires both), for every input text, calendar URL and etag. -/
theorem parser_requires_uid_dtstart (icalData calendarUrl : String)
    (etag : Option String) :
    ((parseICalWithSource icalData calendarUrl etag).all
      (fun e => e.uid.isSome && e.dtstart.isSome)) = true := by
  show (((unfoldICalLines icalData).foldl (stepLine calendarUrl etag)
      { current := none, selfPartstat := none, events := [] }).events.all
      (fun e => e.uid.isSome && e.dtstart.isSome)) = true
  generalize unfoldICalLines icalData = lines
  have hgen : ∀ (ls : List String) (st : ParserState),
      (st.events.all (fun e => e.uid.isSome && e.dtstart.isSome)) = true →
      ((ls.foldl (stepLine calendarUrl etag) st).events.all
        (fun e => e.uid.isSome && e.dtstart.isSome)) = true := by
    intro ls
    induction ls with
    | nil => intro st h; exact h
    | cons l rest ih =>
      intro st h
      exact ih _ (stepLine_events_sound calendarUrl etag st l h)
  exact hgen lines _ rfl

/-! ## C2: the accepted flag -/

theorem scanParam_ne_empty (pat : List Char) :
    ∀ (l : List Char) (s : String), scanParam pat l = some s → s ≠ "" := by
  intro l
  induction l with
  | nil => intro s h; simp [scanParam] at h
  | cons c rest ih =>
    intro s h
    simp only [scanParam] at h
    by_cases hm : (((c :: rest).take pat.length).map Char.toUpper == pat) = true
    · rw [if_pos hm] at h
      by_cases hrun : ((((c :: rest).drop pat.length).takeWhile
          (fun c => c != ';' && c != ':')).isEmpty) = true
      · rw [if_pos hrun] at h
        exact ih s h
      · rw [if_neg hrun] at h
        have hs : s = String.mk (((c :: rest).drop pat.length).takeWhile
            (fun c => c != ';' && c != ':')) := by
          injection h with h'
          exact h'.symm
        intro hemp
        rw [hs] at hemp
        have hdata : ((c :: rest).drop pat.length).takeWhile
            (fun c => c != ';' && c != ':') = [] := congrArg String.data hemp
        rw [hdata] at hrun
        exact hrun rfl
    · rw [if_neg hm] at h
      exact ih s h

theorem extractPartstat_ne_empty (key : String) (s : String)
    (h : extractPartstat key = some s) : s ≠ "" :=
  scanParam_ne_empty _ _ s h

theorem updateSelfPartstat_wf (sp : Option String) (key : String) (h : spWF sp) :
    spWF (updateSelfPartstat sp key) := by
  unfold updateSelfPartstat
  by_cases hinc : includesSub key "X-IS-ME=TRUE" = true
  · rw [if_pos hinc]
    cases hx : extractPartstat key with
    | none => exact h
    | some p => exact Or.inr ⟨p, rfl, extractPartstat_ne_empty key p hx⟩
  · rw [if_neg hinc]
    exact h

/-- The switch changes the tracked self `PARTSTAT` only through
`updateSelfPartstat` (the `ATTENDEE` case); every other case keeps it. -/
theorem handleProperty_sp (cur : ICalEvent) (sp : Option String)
    (fullKey value : String) :
    (handleProperty cur sp fullKey value).2 = sp ∨
    (handleProperty cur sp fullKey value).2 = updateSelfPartstat sp fullKey := by
  unfold handleProperty
  by_cases h1 : (baseKey fullKey == "UID") = true
  · rw [if_pos h1]; exact Or.inl rfl
  rw [if_neg h1]
  by_cases h2 : (baseKey fullKey == "SUMMARY") = true
  · rw [if_pos h2]; exact Or.inl rfl
  rw [if_neg h2]
  by_cases h3 : (baseKey fullKey == "DTSTART") = true
  · rw [if_pos h3]
    cases parseICalDateTime fullKey value with
    | some dt => exact Or.inl rfl
    | none => exact Or.inl rfl
  rw [if_neg h3]
  by_cases h4 : (baseKey fullKey == "DTEND") = true
  · rw [if_pos h4]
    cases parseICalDateTime fullKey value with
    | some dt => exact Or.inl rfl
    | none => exact Or.inl rfl
  rw [if_neg h4]
  by_cases h5 : (baseKey fullKey == "LOCATION") = true
  · rw [if_pos h5]; exact Or.inl rfl
  rw [if_neg h5]
  by_cases h6 : (baseKey fullKey == "DESCRIPTION") = true
  · rw [if_pos h6]; exact Or.inl rfl
  rw [if_neg h6]
  by_cases h7 : (baseKey fullKey == "URL") = true
  · rw [if_pos h7]; exact Or.inl rfl
  rw [if_neg h7]
  by_cases h8 : (baseKey fullKey == "TRANSP") = true
  · rw [if_pos h8]; exact Or.inl rfl
  rw [if_neg h8]
  by_cases h9 : (baseKey fullKey == "ATTENDEE") = true
  · rw [if_pos h9]
    cases parseAttendee fullKey value with
    | some att => exact Or.inr rfl
    | none => exact Or.inr rfl
  rw [if_neg h9]
  by_cases h10 : (baseKey fullKey == "ORGANIZER") = true
  · rw [if_pos h10]
    cases parseAttendee fullKey value with
    | some att => exact Or.inl rfl
    | none => exact Or.inl rfl
  rw [if_neg h10]
  exact Or.inl rfl

theorem stepLine_sp_wf (u : String) (et : Option String) (st : ParserState)
    (line : String) (h : spWF st.selfPartstat) :
    spWF (stepLine u et st line).selfPartstat := by
  unfold stepLine
  by_cases hb : (jsTrim line == "BEGIN:VEVENT") = true
  · simp only [hb, if_true]
    exact Or.inl rfl
  · simp only [hb, Bool.false_eq_true, if_false]
    by_cases he : (jsTrim line == "END:VEVENT") = true
    · simp only [he, if_true]
      cases st.current with
      | none => exact h
      | some cur => exact h
    · simp only [he, Bool.false_eq_true, if_false]
      cases st.current with
      | none => exact h
      | some cur =>
        cases hsplit : splitKeyValue (jsTrim line) with
        | none => exact h
        | some kvp =>
          show spWF (handleProperty cur st.selfPartstat kvp.1 kvp.2).2
          rcases handleProperty_sp cur st.selfPartstat kvp.1 kvp.2 with hs | hs
          · rw [hs]; exact h
          · rw [hs]; exact updateSelfPartstat_wf _ _ h

theorem stepLine_inside (u : String) (et : Option String) (st : ParserState)
    (line : String) (h1 : jsTrim line ≠ "BEGIN:VEVENT")
    (h2 : jsTrim line ≠ "END:VEVENT") :
    (stepLine u et st line).current.isSome = st.current.isSome ∧
    (stepLine u et st line).events = st.events := by
  obtain ⟨curO, sp, evs⟩ := st
  unfold stepLine
  have hb : (jsTrim line == "BEGIN:VEVENT") = false := beq_eq_false_iff_ne.mpr h1
  have he : (jsTrim line == "END:VEVENT") = false := beq_eq_false_iff_ne.mpr h2
  simp only [hb, he, Bool.false_eq_true, if_false]
  cases curO with
  | none => exact ⟨rfl, rfl⟩
  | some cur =>
    cases splitKeyValue (jsTrim line) with
    | none => exact ⟨rfl, rfl⟩
    | some kvp => exact ⟨rfl, rfl⟩

theorem foldl_inside (u : String) (et : Option String) :
    ∀ (body : List String) (st : ParserState),
      (∀ l ∈ body, jsTrim l ≠ "BEGIN:VEVENT" ∧ jsTrim l ≠ "END:VEVENT") →
      (body.foldl (stepLine u et) st).current.isSome = st.current.isSome ∧
      (body.foldl (stepLine u et) st).events = st.events := by
  intro body
  induction body with
  | nil => intro st _; exact ⟨rfl, rfl⟩
  | cons l rest ih =>
    intro st hb
    have hl := hb l (List.mem_cons_self l rest)
    have hstep := stepLine_inside u et st l hl.1 hl.2
    have hrest := ih (stepLine u et st l)
      (fun l' hl' => hb l' (List.mem_cons_of_mem l hl'))
    rw [List.foldl_cons]
    exact ⟨hrest.1.trans hstep.1, hrest.2.trans hstep.2⟩

theorem stepLine_end (u : String) (et : Option String) (st : ParserState)
    (cur : ICalEvent) (hcur : st.current = some cur) :
    stepLine u et st "END:VEVENT" =
      { st with
        current := none
        events :=
          if strTruthy cur.uid && cur.dtstart.isSome then
            st.events ++ [endEvent cur st.selfPartstat]
          else st.events } := by
  obtain ⟨curO, sp, evs⟩ := st
  have hc : curO = some cur := hcur
  subst hc
  rfl

theorem parseLines_block (u : String) (et : Option String) (body : List String) :
    parseLines u et ("BEGIN:VEVENT" :: body ++ ["END:VEVENT"]) =
      stepLine u et
        (body.foldl (stepLine u et) (ParserState.mk (some (initEvent u et)) none []))
        "END:VEVENT" := by
  unfold parseLines
  simp only [List.foldl_cons, List.foldl_append, List.foldl_nil]
  rfl

theorem foldl_sp_wf (u : String) (et : Option String) :
    ∀ (ls : List String) (st : ParserState), spWF st.selfPartstat →
      spWF (ls.foldl (stepLine u et) st).selfPartstat := by
  intro ls
  induction ls with
  | nil => intro st h; exact h
  | cons l rest ih =>
    intro st h
    exact ih _ (stepLine_sp_wf u et st l h)

/-- C2: for every VEVENT block (a body of lines between `BEGIN:VEVENT` and
`END:VEVENT` containing neither marker), every event the parser emits for the
block carries `accepted = true` exactly when the self `PARTSTAT` tracked over
the body — the `PARTSTAT` of the attendee lines carrying `X-IS-ME=TRUE` — is
absent or equals `ACCEPTED`, and `accepted = false` otherwise (so an
attendee line with `X-IS-ME=TRUE;PARTSTAT=DECLINED` and no later self-marked
line yields `accepted = false`). -/
theorem accepted_from_self_partstat (u : String) (et : Option String)
    (body : List String)
    (hb : ∀ l ∈ body, jsTrim l ≠ "BEGIN:VEVENT" ∧ jsTrim l ≠ "END:VEVENT") :
    ∀ ev ∈ (parseLines u et ("BEGIN:VEVENT" :: body ++ ["END:VEVENT"])).events,
      ev.accepted = some (decide
        ((body.foldl (stepLine u et)
            (ParserState.mk (some (initEvent u et)) none [])).selfPartstat = none ∨
         (body.foldl (stepLine u et)
            (ParserState.mk (some (initEvent u et)) none [])).selfPartstat
           = some "ACCEPTED")) := by
  intro ev hev
  rw [parseLines_block] at hev
  set stB := body.foldl (stepLine u et) (ParserState.mk (some (initEvent u et)) none [])
    with hstB
  have hfold := foldl_inside u et body (ParserState.mk (some (initEvent u et)) none []) hb
  rw [← hstB] at hfold
  obtain ⟨cur, hcur⟩ : ∃ cur, stB.current = some cur := by
    cases hc : stB.current with
    | none =>
      rw [hc] at hfold
      simp at hfold
    | some cur => exact ⟨cur, rfl⟩
  rw [stepLine_end u et stB cur hcur] at hev
  have hwf : spWF stB.selfPartstat := by
    rw [hstB]
    exact foldl_sp_wf u et body _ (Or.inl rfl)
  have hacc : (!strTruthy stB.selfPartstat || stB.selfPartstat == some "ACCEPTED") =
      decide (stB.selfPartstat = none ∨ stB.selfPartstat = some "ACCEPTED") := by
    rcases hwf with hnone | ⟨s, hs, hsne⟩
    · rw [hnone]; rfl
    · rw [hs]
      have hne : s.data ≠ [] := fun hc => hsne (by cases s; simp_all)
      have ht : strTruthy (some s) = true := by
        unfold strTruthy
        cases hl : s.data with
        | nil => exact absurd hl hne
        | cons a l => simp [String.toList, hl]
      rw [ht]
      by_cases hs' : s = "ACCEPTED"
      · subst hs'; simp
      · have hbne : (s == "ACCEPTED") = false := beq_eq_false_iff_ne.mpr hs'
        simp [hbne, hs']
  by_cases hg : (strTruthy cur.uid && cur.dtstart.isSome) = true
  · rw [if_pos hg] at hev
    rcases List.mem_append.mp hev with hl | hr
    · rw [hfold.2] at hl
      simp at hl
    · have hev' : ev = endEvent cur stB.selfPartstat := by simpa using hr
      rw [hev']
      show some _ = some _
      rw [hacc]
  · rw [if_neg hg, hfold.2] at hev
    simp at hev

/-- Witness for C2: a block whose self-marked attendee declined yields
`accepted = some false` on the emitted event, and the block does emit one. -/
theorem accepted_from_self_partstat_witness :
    ((parseLines "cal" none ("BEGIN:VEVENT" ::
        ["UID:1", "DTSTART;VALUE=DATE:20250101",
         "ATTENDEE;X-IS-ME=TRUE;PARTSTAT=DECLINED:mailto:me@x.com"] ++
        ["END:VEVENT"])).events.all (fun ev => ev.accepted == some false)) = true ∧
    (parseLines "cal" none ("BEGIN:VEVENT" ::
        ["UID:1", "DTSTART;VALUE=DATE:20250101",
         "ATTENDEE;X-IS-ME=TRUE;PARTSTAT=DECLINED:mailto:me@x.com"] ++
        ["END:VEVENT"])).events.length = 1 := by
  constructor
  · apply List.all_eq_true.mpr
    intro ev hev
    have h := accepted_from_self_partstat "cal" none
      ["UID:1", "DTSTART;VALUE=DATE:20250101",
       "ATTENDEE;X-IS-ME=TRUE;PARTSTAT=DECLINED:mailto:me@x.com"]
      (by decide) ev hev
    rw [h]
    decide
  · decide

/-! ## C6: DTSTART/DTEND decoding -/

/-- C6: for every `DTSTART`/`DTEND` key and value: a key carrying
`VALUE=DATE` (and not `VALUE=DATE-TIME`) decodes a value of length ≥ 8 as an
all-day date from its first 8 characters `YYYYMMDD`; otherwise a value of
length ≥ 15 decodes as a timed value — UTC components when it ends in `Z`,
local wall-clock components when it does not; any other value of length ≥ 8
falls back to date-only decoding; and a value shorter than 8 characters is
dropped (`none`). -/
theorem parseICalDateTime_cases (key value : String) :
    ((includesSub key "VALUE=DATE" && !includesSub key "VALUE=DATE-TIME") = true →
      8 ≤ value.length →
      parseICalDateTime key value = some (EventTime.date
        (jsSlice value 0 4 ++ "-" ++ jsSlice value 4 6 ++ "-" ++ jsSlice value 6 8))) ∧
    ((includesSub key "VALUE=DATE" && !includesSub key "VALUE=DATE-TIME") = false →
      15 ≤ value.length → (value.toList.getLast? == some 'Z') = true →
      parseICalDateTime key value = some (EventTime.dateTime (JsDateValue.utc
        (parseIntJs (jsSlice value 0 4))
        ((parseIntJs (jsSlice value 4 6)).map (fun m => m - 1))
        (parseIntJs (jsSlice value 6 8)) (parseIntJs (jsSlice value 9 11))
        (parseIntJs (jsSlice value 11 13)) (parseIntJs (jsSlice value 13 15))))) ∧
    ((includesSub key "VALUE=DATE" && !includesSub key "VALUE=DATE-TIME") = false →
      15 ≤ value.length → (value.toList.getLast? == some 'Z') = false →
      parseICalDateTime key value = some (EventTime.dateTime (JsDateValue.localTime
        (parseIntJs (jsSlice value 0 4))
        ((parseIntJs (jsSlice value 4 6)).map (fun m => m - 1))
        (parseIntJs (jsSlice value 6 8)) (parseIntJs (jsSlice value 9 11))
        (parseIntJs (jsSlice value 11 13)) (parseIntJs (jsSlice value 13 15))))) ∧
    ((includesSub key "VALUE=DATE" && !includesSub key "VALUE=DATE-TIME") = false →
      value.length < 15 → 8 ≤ value.length →
      parseICalDateTime key value = some (EventTime.date
        (jsSlice value 0 4 ++ "-" ++ jsSlice value 4 6 ++ "-" ++ jsSlice value 6 8))) ∧
    (value.length < 8 → parseICalDateTime key value = none) := by
  refine ⟨?_, ?_, ?_, ?_, ?_⟩
  · intro hflag hlen
    unfold parseICalDateTime
    rw [if_pos hflag, if_pos hlen]
  · intro hflag hlen hz
    unfold parseICalDateTime
    rw [if_neg (by simp [hflag]), if_pos hlen]
    simp only [hz, if_true]
  · intro hflag hlen hz
    unfold parseICalDateTime
    rw [if_neg (by simp [hflag]), if_pos hlen]
    simp only [hz, Bool.false_eq_true, if_false]
  · intro hflag hlen hlen8
    unfold parseICalDateTime
    rw [if_neg (by simp [hflag]), if_neg (by omega), if_pos hlen8]
  · intro hlen
    unfold parseICalDateTime
    by_cases hflag : (includesSub key "VALUE=DATE" && !includesSub key "VALUE=DATE-TIME")
      = true
    · rw [if_pos hflag, if_neg (by omega)]
    · rw [if_neg hflag, if_neg (by omega), if_neg (by omega)]

/-- Witness for C6: an all-day value, a UTC-timed value, a local-timed value,
a fallback date, and a short value, each decoded as the theorem states. -/
theorem parseICalDateTime_cases_witness :
    parseICalDateTime "DTSTART;VALUE=DATE" "20250615" =
      some (EventTime.date "2025-06-15") ∧
    parseICalDateTime "DTSTART" "20250615T090000Z" =
      some (EventTime.dateTime (JsDateValue.utc (some 2025) (some 5) (some 15)
        (some 9) (some 0) (some 0))) ∧
    parseICalDateTime "DTSTART" "20250615T090000" =
      some (EventTime.dateTime (JsDateValue.localTime (some 2025) (some 5) (some 15)
        (some 9) (some 0) (some 0))) ∧
    parseICalDateTime "DTSTART" "20250615" = some (EventTime.date "2025-06-15") ∧
    parseICalDateTime "DTSTART" "2025061" = none := by
  refine ⟨?_, ?_, ?_, ?_, ?_⟩
  · exact (parseICalDateTime_cases "DTSTART;VALUE=DATE" "20250615").1 (by decide) (by decide)
  · exact (parseICalDateTime_cases "DTSTART" "20250615T090000Z").2.1 (by decide) (by decide)
      (by decide)
  · exact (parseICalDateTime_cases "DTSTART" "20250615T090000").2.2.1 (by decide) (by decide)
      (by decide)
  · exact (parseICalDateTime_cases "DTSTART" "20250615").2.2.2.1 (by decide) (by decide)
      (by decide)
  · exact (parseICalDateTime_cases "DTSTART" "2025061").2.2.2.2 (by decide)

/-! ## C8: ORGANIZER lines (corrected) -/

/-- Counterexample to C8 as stated: a VEVENT block containing the line
`ORGANIZER:nobody` (no `@` in the value, so `parseAttendee` returns null) is
emitted with an empty attendee list — the ORGANIZER line produced no
attendee entry at all. -/
theorem organizer_dropped_without_email :
    (parseICalWithSource
        "BEGIN:VEVENT\nUID:1\nDTSTART;VALUE=DATE:20250101\nORGANIZER:nobody\nEND:VEVENT"
        "cal" none).map (fun e => e.attendees) = [[]] := by
  decide

/-- C8 (amended): for every `ORGANIZER` line whose value yields a valid
attendee (after stripping a `mailto:` prefix and trimming, the email is
nonempty and contains `@`), the parser converts it into an attendee entry
with `isOrganizer = true` and `partstat` forced to `ACCEPTED` — regardless of
any `PARTSTAT` on the line — and appends it to the current block's attendee
list; an `ORGANIZER` line whose value yields no valid attendee leaves the
state unchanged. -/
theorem organizer_step (u : String) (et : Option String) (st : ParserState)
    (cur : ICalEvent) (line fullKey value : String)
    (hcur : st.current = some cur)
    (h1 : jsTrim line ≠ "BEGIN:VEVENT") (h2 : jsTrim line ≠ "END:VEVENT")
    (hsplit : splitKeyValue (jsTrim line) = some (fullKey, value))
    (hk : baseKey fullKey = "ORGANIZER") :
    (∀ att, parseAttendee fullKey value = some att →
      stepLine u et st line =
        { st with current := some { cur with attendees :=
            cur.attendees ++ [{ att with isOrganizer := true, partstat := "ACCEPTED" }] } }) ∧
    (parseAttendee fullKey value = none → stepLine u et st line = st) := by
  obtain ⟨curO, sp, evs⟩ := st
  have hc : curO = some cur := hcur
  subst hc
  have hstep : stepLine u et (ParserState.mk (some cur) sp evs) line =
      ParserState.mk (some (handleProperty cur sp fullKey value).1)
        (handleProperty cur sp fullKey value).2 evs := by
    unfold stepLine
    have hb : (jsTrim line == "BEGIN:VEVENT") = false := beq_eq_false_iff_ne.mpr h1
    have he : (jsTrim line == "END:VEVENT") = false := beq_eq_false_iff_ne.mpr h2
    simp only [hb, he, Bool.false_eq_true, if_false, hsplit]
  constructor
  · intro att hatt
    have hh : handleProperty cur sp fullKey value =
        ({ cur with attendees :=
            cur.attendees ++ [{ att with isOrganizer := true, partstat := "ACCEPTED" }] },
         sp) := by
      unfold handleProperty
      rw [hk, hatt]
      rfl
    rw [hstep, hh]
  · intro hatt
    have hh : handleProperty cur sp fullKey value = (cur, sp) := by
      unfold handleProperty
      rw [hk, hatt]
      rfl
    rw [hstep, hh]

/-- Witness for C8 (amended): an `ORGANIZER;CN=Boss:mailto:boss@x.com` line
appends the organizer entry with `partstat = ACCEPTED` even though the line
carries no `PARTSTAT`. -/
theorem organizer_step_witness :
    stepLine "cal" none (ParserState.mk (some (initEvent "cal" none)) none [])
        "ORGANIZER;CN=Boss:mailto:boss@x.com" =
      ParserState.mk (some { initEvent "cal" none with
        attendees := [{ name := some "Boss", email := "boss@x.com",
                        partstat := "ACCEPTED", isOrganizer := true }] }) none [] := by
  have h := (organizer_step "cal" none
      (ParserState.mk (some (initEvent "cal" none)) none []) (initEvent "cal" none)
      "ORGANIZER;CN=Boss:mailto:boss@x.com" "ORGANIZER;CN=Boss" "mailto:boss@x.com"
      rfl (by decide) (by decide) (by decide) (by decide)).1
    { name := some "Boss", email := "boss@x.com", partstat := "NEEDS-ACTION",
      isOrganizer := false } (by decide)
  exact h

/-! ## C4: OAuth poll transitions -/

/-- C4: for a poll tick in the `awaitingUserCode` state (before the captured
expiry): the HTTP-400 bodies `authorization_pending`/`slow_down` classify as
`pending`/`slowDown` and cause no transition while polling continues;
`access_denied`/`expired_token` classify as `denied`/`expired` and transition
to `error` with the timer cancelled; an HTTP-200 token response transitions
to `authenticated` carrying the built `TokenInfo` and cancels the poll timer;
a network error causes no transition and polling continues. -/
theorem poll_tick_transitions (now : Int) (st : GoogleSlice)
    (uc vu dc : String) (ea : Int)
    (hst : st.googleAuth = GoogleAuthState.awaitingUserCode uc vu dc ea)
    (h : now < ea) :
    (pollForToken now (.httpError (some "authorization_pending")) = .ok .pending ∧
     pollForToken now (.httpError (some "slow_down")) = .ok .slowDown ∧
     pollForToken now (.httpError (some "access_denied")) = .ok .denied ∧
     pollForToken now (.httpError (some "expired_token")) = .ok .expired) ∧
    (∀ resp, (pollForToken now resp = .ok .pending ∨
              pollForToken now resp = .ok .slowDown) →
      pollTick now ea st resp = ⟨st, true⟩ ∧
      (pollTick now ea st resp).slice.googleAuth
        = GoogleAuthState.awaitingUserCode uc vu dc ea) ∧
    (∀ resp, (pollForToken now resp = .ok .denied ∨
              pollForToken now resp = .ok .expired) →
      ∃ m, pollTick now ea st resp =
        ⟨{ st with googleAuth := .error m, googleLoading := false }, false⟩) ∧
    (∀ body, pollTick now ea st (.ok body) =
      ⟨{ st with
          googleAuth := .authenticated (tokenInfoOfResponse now body),
          googleNeedsFetch := true,
          googleLoading := false }, false⟩) ∧
    pollTick now ea st .networkError = ⟨st, true⟩ := by
  have hlt : ¬now ≥ ea := not_le.mpr h
  refine ⟨⟨rfl, rfl, rfl, rfl⟩, ?_, ?_, ?_, ?_⟩
  · intro resp hr
    have heq : pollTick now ea st resp = ⟨st, true⟩ := by
      unfold pollTick
      rw [if_neg hlt]
      rcases hr with hr | hr <;> rw [hr]
    exact ⟨heq, by rw [heq, hst]⟩
  · intro resp hr
    rcases hr with hr | hr
    · refine ⟨"Authorization denied", ?_⟩
      unfold pollTick
      rw [if_neg hlt, hr]
      rfl
    · refine ⟨"Authorization expired", ?_⟩
      unfold pollTick
      rw [if_neg hlt, hr]
      rfl
  · intro body
    unfold pollTick
    rw [if_neg hlt]
    rfl
  · unfold pollTick
    rw [if_neg hlt]
    rfl

/-- Witness for C4: at a concrete awaiting state, an `authorization_pending`
HTTP-400 response leaves the state and timer unchanged, and a later HTTP-200
token body transitions to `authenticated` and cancels the timer. -/
theorem poll_tick_transitions_witness :
    pollTick 0 1 ⟨GoogleAuthState.awaitingUserCode "u" "v" "d" 1, false, false⟩
        (.httpError (some "authorization_pending")) =
      ⟨⟨GoogleAuthState.awaitingUserCode "u" "v" "d" 1, false, false⟩, true⟩ ∧
    pollTick 0 1 ⟨GoogleAuthState.awaitingUserCode "u" "v" "d" 1, false, false⟩
        (.ok ⟨"at", none, 3600, "Bearer"⟩) =
      ⟨⟨GoogleAuthState.authenticated ⟨"at", none, 3600000, "Bearer"⟩, false, true⟩,
       false⟩ := by
  have h := poll_tick_transitions 0
    ⟨GoogleAuthState.awaitingUserCode "u" "v" "d" 1, false, false⟩ "u" "v" "d" 1 rfl
    (by decide)
  constructor
  · exact (h.2.1 (.httpError (some "authorization_pending")) (Or.inl h.1.1)).1
  · exact h.2.2.2.1 ⟨"at", none, 3600, "Bearer"⟩

/-! ## C10: refresh keeps the original refresh token -/

/-- C10: for every refresh call the endpoint accepts, the returned
`TokenInfo` keeps the argument refresh token — the response body's
`refresh_token` field is ignored — while `accessToken`, `tokenType` and
`expiresAt` (now plus `expires_in` seconds) come from the response. -/
theorem refreshToken_keeps_original (now : Int) (r : String) (body : TokenResponse) :
    refreshToken now r (.ok body) =
      .ok { accessToken := body.access_token, refreshToken := some r,
            expiresAt := now + body.expires_in * 1000, tokenType := body.token_type } ∧
    (∀ alt, refreshToken now r (.ok { body with refresh_token := alt })
      = refreshToken now r (.ok body)) :=
  ⟨rfl, fun _ => rfl⟩

/-! ## C7: fail-open multi-calendar fetch -/

/-- C7: the multi-calendar fetch delivers, in calendar order, the
concatenation of the converted events of every calendar whose query
succeeded — a throwing calendar is skipped without aborting the others; in
particular, with two calendars where the second one's query fails, all events
of the first are still delivered. -/
theorem fetch_fail_open (calendars : List CalendarEntry)
    (fetchResult : CalendarEntry → Except String (List ICalEvent))
    (conv : ICalEvent → Option String → DisplayEvent) :
    fetchAllCalendars calendars fetchResult conv =
      (calendars.map (fun cal =>
        match fetchResult cal with
        | .ok events => events.map (fun e => conv e cal.name)
        | .error _ => [])).flatten ∧
    (∀ c₁ c₂ es₁ err, fetchResult c₁ = .ok es₁ → fetchResult c₂ = .error err →
      fetchAllCalendars [c₁, c₂] fetchResult conv
        = es₁.map (fun e => conv e c₁.name)) := by
  have hgen : ∀ (cals : List CalendarEntry) (acc : List DisplayEvent),
      cals.foldl (fun allEvents cal =>
        match fetchResult cal with
        | .ok events => allEvents ++ events.map (fun e => conv e cal.name)
        | .error _ => allEvents) acc =
      acc ++ (cals.map (fun cal =>
        match fetchResult cal with
        | .ok events => events.map (fun e => conv e cal.name)
        | .error _ => [])).flatten := by
    intro cals
    induction cals with
    | nil => intro acc; simp
    | cons c rest ih =>
      intro acc
      rw [List.foldl_cons, List.map_cons]
      cases hfc : fetchResult c with
      | ok events =>
        rw [ih]
        simp
      | error e =>
        rw [ih]
        simp
  constructor
  · show List.foldl _ [] calendars = _
    rw [hgen calendars []]
    rfl
  · intro c₁ c₂ es₁ err hok herr
    show List.foldl _ [] [c₁, c₂] = _
    rw [List.foldl_cons, List.foldl_cons, List.foldl_nil, hok, herr]
    rfl

/-- Witness for C7: two calendars, the second one's REPORT failing, still
yield the first calendar's converted events. -/
theorem fetch_fail_open_witness :
    fetchAllCalendars
      [⟨"https://a", some "A"⟩, ⟨"https://b", some "B"⟩]
      (fun cal => if cal.url == "https://a" then
        .ok [{ calendarUrl := "https://a", etag := none, uid := some "e1",
               summary := some "Offsite", dtstart := some (EventTime.date "2025-07-01"),
               dtend := none, location := none, description := none, url := none,
               transp := none, attendees := [], accepted := some true }]
        else .error "REPORT failed")
      (fun e name =>
        { id := EventId.icloud e.calendarUrl (e.uid.getD "") e.etag name,
          title := e.summary.getD "(No title)", timeStr := "All day",
          endTimeStr := none, date := "2025-07-01", accepted := true,
          isOrganizer := false, isFree := false, meetingUrl := none,
          description := none, location := none, attendees := [] }) =
      [{ id := EventId.icloud "https://a" "e1" none (some "A"), title := "Offsite",
         timeStr := "All day", endTimeStr := none, date := "2025-07-01",
         accepted := true, isOrganizer := false, isFree := false, meetingUrl := none,
         description := none, location := none, attendees := [] }] := by
  have h := (fetch_fail_open
      [⟨"https://a", some "A"⟩, ⟨"https://b", some "B"⟩]
      (fun cal => if cal.url == "https://a" then
        .ok [{ calendarUrl := "https://a", etag := none, uid := some "e1",
               summary := some "Offsite", dtstart := some (EventTime.date "2025-07-01"),
               dtend := none, location := none, description := none, url := none,
               transp := none, attendees := [], accepted := some true }]
        else .error "REPORT failed")
      (fun e name =>
        { id := EventId.icloud e.calendarUrl (e.uid.getD "") e.etag name,
          title := e.summary.getD "(No title)", timeStr := "All day",
          endTimeStr := none, date := "2025-07-01", accepted := true,
          isOrganizer := false, isFree := false, meetingUrl := none,
          description := none, location := none, attendees := [] })).2
    ⟨"https://a", some "A"⟩ ⟨"https://b", some "B"⟩
    [{ calendarUrl := "https://a", etag := none, uid := some "e1",
       summary := some "Offsite", dtstart := some (EventTime.date "2025-07-01"),
       dtend := none, location := none, description := none, url := none,
       transp := none, attendees := [], accepted := some true }]
    "REPORT failed" rfl rfl
  exact h

end Calendarchy
